import Mathlib

/-!
Verification of the two-phase bulk-export reconciliation and aggregation
pipeline of the Shopify_Insights repository.

The post-processing scripts of the repository are linear Python scripts that
read a line-delimited JSON export, classify each line by an identifier-prefix
convention, reconstruct parent/child (customer/order) relationships, and
aggregate metrics into bucket rows.  This file embeds those scripts shallowly:

* Python dictionaries become insertion-ordered association lists
  (`dlookup`, `dupsert`, `dappend`, `dbump`), where assignment replaces a
  present key in place and appends an absent key at the end, exactly as
  Python dicts behave.
* Money amounts become exact rationals (the scripts use IEEE floats; the
  claims are stated "within floating rounding tolerance", which the exact
  rational model realises with equality).
* Timestamps become `SDate` records (year, month, day); the scripts only
  compare dates and extract year/month, which the embedding mirrors.
* JSON parsing is abstracted at the classifier boundary: each input line is
  either blank, malformed (a `json.loads` / field-parse failure, which the
  scripts catch per line), or a parsed record carrying the optional `id`,
  optional `__parentId` and the entity payload.  The string-prefix dispatch
  on `gid://shopify/Customer` and `gid://shopify/Order` is kept literally.
-/

namespace ShopifyInsights

/-! ## Association-list model of Python dictionaries -/

/-- Lookup in an association list (first match, as in a Python dict whose
keys are unique by construction). -/
def dlookup {K V : Type} [DecidableEq K] (k : K) : List (K × V) → Option V
  | [] => none
  | kv :: rest => if kv.1 = k then some kv.2 else dlookup k rest

/-- Lookup with a default value. -/
def dlookupD {K V : Type} [DecidableEq K] (k : K) (d : List (K × V)) (v0 : V) : V :=
  (dlookup k d).getD v0

/-- Dictionary assignment `d[k] = v`: replace in place if the key is
present, append at the end otherwise. -/
def dupsert {K V : Type} [DecidableEq K] (k : K) (v : V) : List (K × V) → List (K × V)
  | [] => [(k, v)]
  | kv :: rest => if kv.1 = k then (k, v) :: rest else kv :: dupsert k v rest

/-- Append an element to the list stored at `k`, creating a one-element list
when the key is absent (the `defaultdict(list)` / explicit-initialisation
pattern of the scripts). -/
def dappend {K V : Type} [DecidableEq K] (k : K) (x : V) :
    List (K × List V) → List (K × List V)
  | [] => [(k, [x])]
  | kv :: rest => if kv.1 = k then (kv.1, kv.2 ++ [x]) :: rest else kv :: dappend k x rest

/-- Increment the counter stored at `k` (the `defaultdict(int)` pattern). -/
def dbump {K : Type} [DecidableEq K] (k : K) : List (K × Nat) → List (K × Nat)
  | [] => [(k, 1)]
  | kv :: rest => if kv.1 = k then (kv.1, kv.2 + 1) :: rest else kv :: dbump k rest

/-- Keys of an association list. -/
def dkeys {K V : Type} (d : List (K × V)) : List K := d.map Prod.fst

/-! ## Dates and rounding -/

/-- Calendar date as produced by `datetime.strptime` on the export's
timestamp format; the scripts compare dates and read year/month. -/
structure SDate where
  year : Nat
  month : Nat
  day : Nat
deriving DecidableEq, Repr

/-- Strict lexicographic comparison of dates (the behaviour of comparing
parsed `datetime` values). -/
def SDate.blt (a b : SDate) : Bool :=
  a.year < b.year ||
    (a.year == b.year && (a.month < b.month ||
      (a.month == b.month && a.day < b.day)))

/-- Year-month projection, the `%Y-%m` period used for cohorts and
month-bucket comparisons. -/
def monthOf (d : SDate) : Nat × Nat := (d.year, d.month)

/-- Rounding to two decimal places, the `round(x, 2)` applied to every
monetary output field (modelled half-up on exact rationals). -/
def round2 (q : ℚ) : ℚ := (⌊q * 100 + 1 / 2⌋ : ℚ) / 100

/-- The root-entity identifier prefix of the export convention. -/
def gidCustomer : String := "gid://shopify/Customer"

/-- The order-entity identifier prefix of the export convention. -/
def gidOrder : String := "gid://shopify/Order"

/-- Python's `s.startswith(pre)`, expressed on the character lists. -/
def strHasPre (pre s : String) : Bool := pre.data.isPrefixOf s.data

/-- Test `data["id"].startswith("gid://shopify/Customer")` on an optional
identifier (`false` when the field is absent, as the `"id" in data` guard
makes the conjunction fail). -/
def isCustomerGid : Option String → Bool
  | some s => strHasPre gidCustomer s
  | none => false

/-- Test for the order prefix on an optional identifier. -/
def isOrderGid : Option String → Bool
  | some s => strHasPre gidOrder s
  | none => false

/-! ## Embedding of the Total_Sales_over_time script

The script folds order records into a per-day `defaultdict` of accumulators
and then, in a second pass, computes `net_sales` and `total_sales` from the
accumulated sums before rounding every monetary field to two decimals. -/

/-- An order record of the sales-over-time export: creation day, monetary
fields, and the list of refund amounts (the script sums
`refund["totalRefundedSet"]["shopMoney"]["amount"]` over `data["refunds"]`). -/
structure TSOrderRec where
  day : String
  gross_sales : ℚ
  discounts : ℚ
  shipping : ℚ
  taxes : ℚ
  refunds : List ℚ
deriving DecidableEq, Repr

/-- One input line of the sales-over-time script: either a parsed order
record, or anything else (blank, malformed, or not an Order id), which the
loop leaves without effect on the accumulators. -/
inductive TSLine where
  | junk
  | order (o : TSOrderRec)
deriving DecidableEq, Repr

/-- Per-day accumulator of the sales-over-time script (`daily_data[day]`). -/
structure DayAcc where
  orders : Nat
  gross_sales : ℚ
  discounts : ℚ
  returns : ℚ
  shipping_charges : ℚ
  duties : ℚ
  additional_fees : ℚ
  taxes : ℚ
deriving DecidableEq, Repr

/-- The all-zero accumulator a fresh `defaultdict` entry starts from. -/
def DayAcc.fresh : DayAcc := ⟨0, 0, 0, 0, 0, 0, 0, 0⟩

/-- Sum of the refund amounts of one order. -/
def sumRefunds (rs : List ℚ) : ℚ := rs.foldl (· + ·) 0

/-- Fold one order into its day's accumulator (the body of the aggregation
loop; duties and additional fees are unavailable and set to zero). -/
def addOrderToDay (a : DayAcc) (o : TSOrderRec) : DayAcc :=
  { orders := a.orders + 1
    gross_sales := a.gross_sales + o.gross_sales
    discounts := a.discounts + o.discounts
    returns := a.returns + sumRefunds o.refunds
    shipping_charges := a.shipping_charges + o.shipping
    taxes := a.taxes + o.taxes
    duties := 0
    additional_fees := 0 }

/-- Step 1 of the script: aggregate all order lines by day. -/
def foldDailySales (lines : List TSLine) : List (String × DayAcc) :=
  lines.foldl (fun d l =>
    match l with
    | .junk => d
    | .order o => dupsert o.day (addOrderToDay (dlookupD o.day d DayAcc.fresh) o) d) []

/-- Step 2 of the script: `net_sales = gross_sales - discounts - returns`. -/
def DayAcc.net_sales (a : DayAcc) : ℚ := a.gross_sales - a.discounts - a.returns

/-- Step 2 of the script: `total_sales = net_sales + shipping + duties +
additional_fees + taxes`. -/
def DayAcc.total_sales (a : DayAcc) : ℚ :=
  a.net_sales + a.shipping_charges + a.duties + a.additional_fees + a.taxes

/-- One finalized output row of the sales-over-time report. -/
structure DayRow where
  day : String
  orders : Nat
  gross_sales : ℚ
  discounts : ℚ
  returns : ℚ
  net_sales : ℚ
  shipping_charges : ℚ
  duties : ℚ
  additional_fees : ℚ
  taxes : ℚ
  total_sales : ℚ
deriving DecidableEq, Repr

/-- Finalize a day's accumulator into an output row, rounding every
monetary field to two decimals as the script does when emitting. -/
def mkDayRow (day : String) (a : DayAcc) : DayRow :=
  { day := day
    orders := a.orders
    gross_sales := round2 a.gross_sales
    discounts := round2 a.discounts
    returns := round2 a.returns
    net_sales := round2 a.net_sales
    shipping_charges := round2 a.shipping_charges
    duties := round2 a.duties
    additional_fees := round2 a.additional_fees
    taxes := round2 a.taxes
    total_sales := round2 a.total_sales }

/-- The full daily-row table of the sales-over-time report. -/
def dailyRows (lines : List TSLine) : List DayRow :=
  (foldDailySales lines).map (fun kv => mkDayRow kv.1 kv.2)

/-! ## Embedding of the cohort script

The cohort script links orders to customers by `__parentId`, tracks each
customer's first order date, groups customers into monthly cohorts and
emits one row per cohort per month. -/

/-- An order payload of the cohort export (date parsed from `createdAt`,
monetary fields defaulted to zero when absent, as `.get(..., "0.0")` does). -/
structure COrder where
  order_date : SDate
  gross_sales : ℚ
  discounts : ℚ
  taxes : ℚ
  shipping : ℚ
  total_sales : ℚ
deriving DecidableEq, Repr

/-- One input line of the cohort script.  A `record` carries the optional
`id`, the optional `__parentId`, the optional `createdAt` string and, for
order records, the parsed order payload (`none` when parsing the date or a
monetary field raises, which the per-line handler catches). -/
inductive CohLine where
  | blank
  | malformed
  | record (id : Option String) (parentId : Option String)
      (createdAt : Option String) (payload : Option COrder)
deriving DecidableEq, Repr

/-- Per-customer entry of the cohort script's `customers` dict. -/
structure CustInfo where
  createdAt : Option String
  first_order_date : Option SDate
deriving DecidableEq, Repr

/-- State of the cohort script's first loop: the `customers` dict and the
`customer_orders` defaultdict. -/
structure CohortState where
  customers : List (String × CustInfo)
  customer_orders : List (String × List COrder)
deriving DecidableEq, Repr

/-- Fresh per-run state (both dicts empty). -/
def CohortState.fresh : CohortState := ⟨[], []⟩

/-- One iteration of the cohort script's first loop.  A customer record
(re)initialises its entry with `first_order_date = None`.  An order record
is appended to `customer_orders[parent]` first; the subsequent
`customers[parent]` lookup raises `KeyError` when the parent customer has
not been seen yet, which the handler catches — the append survives, the
first-order-date update does not happen. -/
def cohStep (s : CohortState) : CohLine → CohortState
  | .blank => s
  | .malformed => s
  | .record id parentId createdAt payload =>
    match id, isCustomerGid id with
    | some i, true =>
      { s with customers := dupsert i { createdAt := createdAt, first_order_date := none } s.customers }
    | _, _ =>
      match parentId, isCustomerGid parentId with
      | some p, true =>
        match payload with
        | none => s
        | some o =>
          let s1 : CohortState := { s with customer_orders := dappend p o s.customer_orders }
          match dlookup p s1.customers with
          | none => s1
          | some info =>
            let doUpdate : Bool :=
              match info.first_order_date with
              | none => true
              | some d => o.order_date.blt d
            if doUpdate then
              { s1 with customers :=
                  dupsert p { info with first_order_date := some o.order_date } s1.customers }
            else s1
      | _, _ => s

/-- Run the first loop over all lines from fresh state. -/
def runCohLoop (lines : List CohLine) : CohortState :=
  lines.foldl cohStep CohortState.fresh

/-- Whether a line is the customer record of customer `x` (enters the
customer branch with key `x`). -/
def isCustLineFor (x : String) : CohLine → Bool
  | .record id _ _ _ => isCustomerGid id && (id == some x)
  | _ => false

/-- Whether a line enters the order branch with parent `x` (its own id is
not customer-prefixed and its `__parentId` is the customer-prefixed `x`). -/
def entersOrderBranchFor (x : String) : CohLine → Bool
  | .record id pid _ _ => !isCustomerGid id && isCustomerGid pid && (pid == some x)
  | _ => false

/-- Whether a line can modify the `customers` entry of `x`. -/
def touchesCust (x : String) (l : CohLine) : Bool :=
  isCustLineFor x l || entersOrderBranchFor x l

/-- The `(parent, order)` append a cohort line performs on
`customer_orders`, when any: the line must miss the customer branch, carry
a customer-prefixed `__parentId`, and have a parseable order payload. -/
def cohLineOrder : CohLine → Option (String × COrder)
  | .record id pid _ payload =>
    match id, isCustomerGid id with
    | some _, true => none
    | _, _ =>
      match pid, isCustomerGid pid with
      | some p, true => payload.map (fun o => (p, o))
      | _, _ => none
  | _ => none

/-- The order payload a line contributes to `customer_orders[x]`, when any. -/
def cohOrderFor (x : String) (l : CohLine) : Option COrder :=
  match cohLineOrder l with
  | some q => if q.1 = x then some q.2 else none
  | none => none

/-- All order payloads contributed to `customer_orders[x]` by the input, in
input order. -/
def cohOrdersFor (lines : List CohLine) (x : String) : List COrder :=
  lines.filterMap (cohOrderFor x)

/-- Projection of `cohStep` to the `customers` dict (the update depends
only on the `customers` component). -/
def cohCustStep (cs : List (String × CustInfo)) : CohLine → List (String × CustInfo)
  | .blank => cs
  | .malformed => cs
  | .record id parentId createdAt payload =>
    match id, isCustomerGid id with
    | some i, true => dupsert i { createdAt := createdAt, first_order_date := none } cs
    | _, _ =>
      match parentId, isCustomerGid parentId with
      | some p, true =>
        match payload with
        | none => cs
        | some o =>
          match dlookup p cs with
          | none => cs
          | some info =>
            let doUpdate : Bool :=
              match info.first_order_date with
              | none => true
              | some d => o.order_date.blt d
            if doUpdate then
              dupsert p { info with first_order_date := some o.order_date } cs
            else cs
      | _, _ => cs

/-- Projection of `cohStep` to the `customer_orders` dict. -/
def cohObyStep (d : List (String × List COrder)) (l : CohLine) : List (String × List COrder) :=
  match cohLineOrder l with
  | some q => dappend q.1 q.2 d
  | none => d

/-- Step 2 of the cohort script: group customer ids by the month of their
first order date, skipping customers whose `first_order_date` is `None`. -/
def buildCohorts (customers : List (String × CustInfo)) : List ((Nat × Nat) × List String) :=
  customers.foldl (fun acc kv =>
    match kv.2.first_order_date with
    | none => acc
    | some d => dappend (monthOf d) kv.1 acc) []

/-- Members of the cohort of period `p`. -/
def cohortMembers (customers : List (String × CustInfo)) (p : Nat × Nat) : List String :=
  dlookupD p (buildCohorts customers) []

/-- One output row of the cohort report. -/
structure CohortRow where
  Customer_cohort_period : Nat × Nat
  Periods_since_first_purchase : Int
  Total_customers : Nat
  Total_gross_sales : ℚ
  Total_net_sales : ℚ
  Average_order_value : ℚ
  Total_orders : Nat
  Average_number_of_orders : ℚ
  Total_total_sales : ℚ
  Amount_spent_per_customer : ℚ
  Customer_retention : ℚ
deriving DecidableEq, Repr

/-- Finalize one cohort-period bucket into an output row (lines 308–326 of
the cohort script): `total_net_sales = total_gross_sales - total_discounts`;
each average/rate guards its denominator with an explicit zero fallback; all
monetary fields are rounded to two decimals. -/
def mkCohortRow (period : Nat × Nat) (periodsSince : Int)
    (total_customers total_orders : Nat)
    (total_gross_sales total_discounts total_total_sales : ℚ)
    (repeat_customers : Nat) : CohortRow :=
  let total_net_sales := total_gross_sales - total_discounts
  let average_order_value : ℚ :=
    if total_orders > 0 then total_gross_sales / (total_orders : ℚ) else 0
  let average_number_of_orders : ℚ :=
    if total_customers > 0 then (total_orders : ℚ) / (total_customers : ℚ) else 0
  let amount_spent_per_customer : ℚ :=
    if total_customers > 0 then total_total_sales / (total_customers : ℚ) else 0
  let customer_retention : ℚ :=
    if total_customers > 0 ∧ periodsSince > 0 then
      (repeat_customers : ℚ) / (total_customers : ℚ) * 100
    else 0
  { Customer_cohort_period := period
    Periods_since_first_purchase := periodsSince
    Total_customers := total_customers
    Total_gross_sales := round2 total_gross_sales
    Total_net_sales := round2 total_net_sales
    Average_order_value := round2 average_order_value
    Total_orders := total_orders
    Average_number_of_orders := round2 average_number_of_orders
    Total_total_sales := round2 total_total_sales
    Amount_spent_per_customer := round2 amount_spent_per_customer
    Customer_retention := round2 customer_retention }

/-- Per-cohort-per-month accumulator of the metric loop. -/
structure PeriodAcc where
  total_orders : Nat
  total_gross_sales : ℚ
  total_discounts : ℚ
  total_taxes : ℚ
  total_shipping : ℚ
  total_total_sales : ℚ
  repeat_customers : Nat
deriving DecidableEq, Repr

/-- Number of months between a cohort start month and a later month, the
`(y2 - y1) * 12 + m2 - m1` of the script. -/
def periodsBetween (cohort current : Nat × Nat) : Int :=
  ((current.1 : Int) - (cohort.1 : Int)) * 12 + (current.2 : Int) - (cohort.2 : Int)

/-- The orders of one customer falling in month `m`. -/
def ordersInMonth (orders : List COrder) (m : Nat × Nat) : List COrder :=
  orders.filter (fun o => monthOf o.order_date == m)

/-- Sum a monetary field over a list of orders. -/
def sumBy (f : COrder → ℚ) (os : List COrder) : ℚ := os.foldl (fun t o => t + f o) 0

/-- Accumulate one cohort's metrics for one month: every member customer's
orders of that month are summed; a member with at least one such order
joins the repeat-customer set when the period index is positive. -/
def foldCohortPeriod (customer_orders : List (String × List COrder))
    (members : List String) (m : Nat × Nat) (periodsSince : Int) : PeriodAcc :=
  members.foldl (fun acc cid =>
    let orders := dlookupD cid customer_orders []
    let monthOrders := ordersInMonth orders m
    let acc1 : PeriodAcc :=
      { total_orders := acc.total_orders + monthOrders.length
        total_gross_sales := acc.total_gross_sales + sumBy (fun o => o.gross_sales) monthOrders
        total_discounts := acc.total_discounts + sumBy (fun o => o.discounts) monthOrders
        total_taxes := acc.total_taxes + sumBy (fun o => o.taxes) monthOrders
        total_shipping := acc.total_shipping + sumBy (fun o => o.shipping) monthOrders
        total_total_sales := acc.total_total_sales + sumBy (fun o => o.total_sales) monthOrders
        repeat_customers := acc.repeat_customers }
    if !monthOrders.isEmpty && decide (0 < periodsSince) then
      { acc1 with repeat_customers := acc1.repeat_customers + 1 }
    else acc1) ⟨0, 0, 0, 0, 0, 0, 0⟩

/-- Non-strict month order (lexicographic on year, month). -/
def monthLE (a b : Nat × Nat) : Bool := a.1 < b.1 || (a.1 == b.1 && a.2 ≤ b.2)

/-- Insertion into a sorted list. -/
def insertSorted {α : Type} (le : α → α → Bool) (x : α) : List α → List α
  | [] => [x]
  | y :: ys => if le x y then x :: y :: ys else y :: insertSorted le x ys

/-- Insertion sort by a boolean order (the script's `sort`/`sorted`). -/
def sortByLE {α : Type} (le : α → α → Bool) : List α → List α
  | [] => []
  | x :: xs => insertSorted le x (sortByLE le xs)

/-- Remove duplicates (the script builds a `set` before sorting). -/
def dedupKeys {α : Type} [DecidableEq α] : List α → List α
  | [] => []
  | x :: xs => if x ∈ xs then dedupKeys xs else x :: dedupKeys xs

/-- The sorted, de-duplicated month axis: every cohort month plus the fixed
month (2025, 4) added by the script. -/
def allMonthsOf (cohorts : List ((Nat × Nat) × List String)) : List (Nat × Nat) :=
  sortByLE monthLE (dedupKeys (cohorts.map Prod.fst ++ [(2025, 4)]))

/-- Row order of the final sort: by cohort period, then by period index. -/
def rowLE (a b : CohortRow) : Bool :=
  if a.Customer_cohort_period == b.Customer_cohort_period then
    decide (a.Periods_since_first_purchase ≤ b.Periods_since_first_purchase)
  else monthLE a.Customer_cohort_period b.Customer_cohort_period

/-- The cohort Metric Aggregator: from the reconstructed entity set (the
`customers` and `customer_orders` dicts) produce the sorted cohort rows.
Steps 2–4 of the cohort script; all accumulator state is constructed inside
this function, fresh per invocation. -/
def aggregateCohortRows (customers : List (String × CustInfo))
    (customer_orders : List (String × List COrder)) : List CohortRow :=
  let cohorts := buildCohorts customers
  let months := allMonthsOf cohorts
  let rows := cohorts.foldl (fun rows kv =>
    rows ++ months.filterMap (fun m =>
      let ps := periodsBetween kv.1 m
      if ps < 0 then none
      else
        let acc := foldCohortPeriod customer_orders kv.2 m ps
        some (mkCohortRow kv.1 ps kv.2.length acc.total_orders acc.total_gross_sales
          acc.total_discounts acc.total_total_sales acc.repeat_customers))) []
  sortByLE rowLE rows

/-- Two sequential runs of the cohort Metric Aggregator on the same
reconstructed entity set, each constructing fresh accumulator state. -/
def cohortAggregatorTwoRuns (customers : List (String × CustInfo))
    (customer_orders : List (String × List COrder)) : List CohortRow × List CohortRow :=
  (aggregateCohortRows customers customer_orders,
   aggregateCohortRows customers customer_orders)

/-! ## Embedding of the RFM script

The RFM script classifies lines by id prefix into customer and order
records while counting invalid lines, groups orders by `__parentId`,
reconstructs the nested structure in a second pass, computes per-customer
recency/frequency/monetary metrics, scores them against threshold ladders
and assigns an RFM group, then aggregates per group. -/

/-- Payload of an order record of the RFM export. -/
structure ROrder where
  createdAt : SDate
  gross_sales : ℚ
  discounts : ℚ
  taxes : ℚ
  shipping : ℚ
deriving DecidableEq, Repr

/-- A parsed record of the RFM export: the optional `id`, the optional
`__parentId`, and the entity payload fields. -/
structure RfmRec where
  id : Option String
  parentId : Option String
  ord : ROrder
deriving DecidableEq, Repr

/-- One input line of the RFM script: blank (skipped silently), malformed
(counted invalid), or a parsed record. -/
inductive RLine where
  | blank
  | malformed
  | record (r : RfmRec)
deriving DecidableEq, Repr

/-- A customer entry of the RFM script's `customers` dict: the raw record
plus the `orders.edges` collection (normalised to empty on ingest, replaced
by the second pass). -/
structure RfmCust where
  raw : RfmRec
  edges : List RfmRec
deriving DecidableEq, Repr

/-- State of the RFM script's first pass. -/
structure RState where
  customers : List (String × RfmCust)
  orders_by_customer : List (String × List RfmRec)
  lines_processed : Nat
  invalid_lines : Nat
deriving DecidableEq, Repr

/-- Fresh per-run state of the RFM first pass. -/
def RState.fresh : RState := ⟨[], [], 0, 0⟩

/-- One iteration of the RFM first pass: customer-prefixed ids register a
customer, order-prefixed ids with a customer-prefixed `__parentId` are
appended to `orders_by_customer`, everything else increments the
invalid-line counter (blank lines are skipped without counting). -/
def rfmStep (s : RState) : RLine → RState
  | .blank => { s with lines_processed := s.lines_processed + 1 }
  | .malformed =>
    { s with lines_processed := s.lines_processed + 1
             invalid_lines := s.invalid_lines + 1 }
  | .record r =>
    let s0 := { s with lines_processed := s.lines_processed + 1 }
    match r.id, isCustomerGid r.id, isOrderGid r.id with
    | some i, true, _ =>
      { s0 with customers := dupsert i { raw := r, edges := [] } s0.customers }
    | some _, false, true =>
      match r.parentId, isCustomerGid r.parentId with
      | some p, true =>
        { s0 with orders_by_customer := dappend p r s0.orders_by_customer }
      | _, _ => { s0 with invalid_lines := s0.invalid_lines + 1 }
    | _, _, _ => { s0 with invalid_lines := s0.invalid_lines + 1 }

/-- Run the RFM first pass from fresh state. -/
def runRfmLoop (lines : List RLine) : RState :=
  lines.foldl rfmStep RState.fresh

/-- The customer registration a line performs, when any. -/
def lineCustomer : RLine → Option (String × RfmRec)
  | .record r =>
    match r.id, isCustomerGid r.id with
    | some i, true => some (i, r)
    | _, _ => none
  | _ => none

/-- The `(parent, order)` append a line performs, when any. -/
def lineOrderRec : RLine → Option (String × RfmRec)
  | .record r =>
    match r.id, isCustomerGid r.id, isOrderGid r.id with
    | some _, false, true =>
      match r.parentId, isCustomerGid r.parentId with
      | some p, true => some (p, r)
      | _, _ => none
    | _, _, _ => none
  | _ => none

/-- Whether a line increments the invalid-line counter: malformed lines,
order records with a missing or non-customer-prefixed parent reference, and
records that are neither customer nor order. -/
def lineInvalid : RLine → Bool
  | .blank => false
  | .malformed => true
  | .record r =>
    match r.id, isCustomerGid r.id, isOrderGid r.id with
    | some _, true, _ => false
    | some _, false, true =>
      match r.parentId, isCustomerGid r.parentId with
      | some _, true => false
      | _, _ => true
    | _, _, _ => true

/-- Number of lines that increment the invalid-line counter. -/
def countInvalidLines (lines : List RLine) : Nat := lines.countP lineInvalid

/-- Projection of `rfmStep` to the `customers` dict. -/
def custStepFun (cs : List (String × RfmCust)) (l : RLine) : List (String × RfmCust) :=
  match lineCustomer l with
  | some q => dupsert q.1 { raw := q.2, edges := [] } cs
  | none => cs

/-- Projection of `rfmStep` to the `orders_by_customer` dict. -/
def obyStepFun (d : List (String × List RfmRec)) (l : RLine) : List (String × List RfmRec) :=
  match lineOrderRec l with
  | some q => dappend q.1 q.2 d
  | none => d

/-- All orders the input contributes to `orders_by_customer[p]`, in input
order. -/
def rfmOrdersFor (lines : List RLine) (p : String) : List RfmRec :=
  lines.filterMap (fun l =>
    match lineOrderRec l with
    | some q => if q.1 = p then some q.2 else none
    | none => none)

/-- The second pass of the RFM script: for every parent id present in
`orders_by_customer` that also exists in `customers`, replace that
customer's `orders.edges` with the grouped order list.  Parents absent from
`customers` are left alone — their orders are attached nowhere. -/
def rfmReconstruct (customers : List (String × RfmCust))
    (orders_by_customer : List (String × List RfmRec)) : List (String × RfmCust) :=
  orders_by_customer.foldl (fun cs kv =>
    match dlookup kv.1 cs with
    | some c => dupsert kv.1 { c with edges := kv.2 } cs
    | none => cs) customers

/-- Both passes of the RFM script: classify-and-group, then reconstruct. -/
def runRfmPipeline (lines : List RLine) : RState :=
  let s := runRfmLoop lines
  { s with customers := rfmReconstruct s.customers s.orders_by_customer }

/-- Per-customer RFM metrics (the `customer_data` entries of the script). -/
structure CustMetrics where
  days_since_last_order : Int
  total_orders : Nat
  total_spent : ℚ
  is_new_customer : Bool
deriving DecidableEq, Repr

/-- The most recent `createdAt` among a customer's orders. -/
def lastOrderDate (orders : List RfmRec) : Option SDate :=
  orders.foldl (fun best r =>
    match best with
    | none => some r.ord.createdAt
    | some b => if b.blt r.ord.createdAt then some r.ord.createdAt else some b) none

/-- Total spend: `gross_sales - discounts + taxes + shipping` summed over
the customer's orders. -/
def totalSpentOf (orders : List RfmRec) : ℚ :=
  orders.foldl (fun t r =>
    t + (r.ord.gross_sales - r.ord.discounts + r.ord.taxes + r.ord.shipping)) 0

/-- Body of the metric loop of Step 2 of the RFM script: fold one
reconstructed customer into `customer_data`, skipping customers with zero
orders (they get no entry at all). -/
def ccdStep (dayDiff : SDate → SDate → Int) (today : SDate)
    (acc : List (String × CustMetrics)) (kv : String × RfmCust) :
    List (String × CustMetrics) :=
  let orders := kv.2.edges
  let total_orders := orders.length
  if total_orders = 0 then acc
  else
    match lastOrderDate orders with
    | none => acc
    | some last =>
      acc ++ [(kv.1,
        { days_since_last_order := dayDiff today last
          total_orders := total_orders
          total_spent := totalSpentOf orders
          is_new_customer := total_orders == 1 })]

/-- Step 2 of the RFM script: compute per-customer metrics.  `dayDiff`
stands for the calendar-day subtraction
`(CURRENT_DATE - last_order_date).days`. -/
def computeCustomerData (dayDiff : SDate → SDate → Int) (today : SDate)
    (customers : List (String × RfmCust)) : List (String × CustMetrics) :=
  customers.foldl (ccdStep dayDiff today) []

/-- The four ascending recency thresholds (days). -/
def recency_thresholds : List ℚ := [30, 60, 90, 180]

/-- The four ascending frequency thresholds (orders). -/
def frequency_thresholds : List ℚ := [1, 3, 5, 10]

/-- The four ascending monetary thresholds (dollars). -/
def monetary_thresholds : List ℚ := [100, 500, 1000, 5000]

/-- The 1–5 scoring ladder of the RFM script: score 5 for values at or
below the first threshold, then 4, 3, 2 for the following bands, and 1 for
values above the top threshold. -/
def score_metric (value : ℚ) (thresholds : List ℚ) : Nat :=
  if value ≤ thresholds.getD 0 0 then 5
  else if value ≤ thresholds.getD 1 0 then 4
  else if value ≤ thresholds.getD 2 0 then 3
  else if value ≤ thresholds.getD 3 0 then 2
  else 1

/-- RFM group assignment: score the three metrics, average them, and pick
the band — with the new-customer check taking precedence over the bands. -/
def assignRfmGroup (m : CustMetrics) : String :=
  let r_score := score_metric (m.days_since_last_order : ℚ) recency_thresholds
  let f_score := score_metric (m.total_orders : ℚ) frequency_thresholds
  let m_score := score_metric m.total_spent monetary_thresholds
  let avg_score : ℚ := ((r_score : ℚ) + (f_score : ℚ) + (m_score : ℚ)) / 3
  if m.is_new_customer then "New"
  else if avg_score ≥ 4 then "High-Value"
  else if avg_score ≥ 3 then "Loyal"
  else if avg_score ≥ 2 then "At-Risk"
  else "Lost"

/-- The group-assignment loop over `customer_data`. -/
def assignGroups (cd : List (String × CustMetrics)) : List (String × CustMetrics × String) :=
  cd.map (fun kv => (kv.1, kv.2, assignRfmGroup kv.2))

/-- The RFM customer data with groups assigned, as produced from the
reconstructed customers. -/
def rfmGroupedData (dayDiff : SDate → SDate → Int) (today : SDate)
    (customers : List (String × RfmCust)) : List (String × CustMetrics × String) :=
  assignGroups (computeCustomerData dayDiff today customers)

/-- Per-group accumulator of the RFM aggregation step. -/
structure GroupAcc where
  customer_count : Nat
  new_customers : Nat
  days_since_sum : Int
  total_orders_sum : Nat
  total_spent_sum : ℚ
deriving DecidableEq, Repr

/-- Aggregate the grouped customer data by RFM group. -/
def foldRfmGroups (cd : List (String × CustMetrics × String)) : List (String × GroupAcc) :=
  cd.foldl (fun gs kv =>
    let m := kv.2.1
    let g := kv.2.2
    let acc := dlookupD g gs ⟨0, 0, 0, 0, 0⟩
    dupsert g
      { customer_count := acc.customer_count + 1
        new_customers := acc.new_customers + (if m.is_new_customer then 1 else 0)
        days_since_sum := acc.days_since_sum + m.days_since_last_order
        total_orders_sum := acc.total_orders_sum + m.total_orders
        total_spent_sum := acc.total_spent_sum + m.total_spent } gs) []

/-- The percent-of-customers rate of the RFM report, with its explicit
zero-denominator guard. -/
def percent_customers_of (customer_count total_customers : Nat) : ℚ :=
  if total_customers > 0 then (customer_count : ℚ) / (total_customers : ℚ) else 0

/-- One output row of the RFM report. -/
structure RfmRow where
  rfm_group : String
  percent_customers : ℚ
  new_customers : Nat
  avg_days_since_last_order : ℚ
  avg_total_orders : ℚ
  avg_total_spent : ℚ
deriving DecidableEq, Repr

/-- Final metrics of the RFM report: one row per group, sorted by group
name, the group averages divided by the group's customer count (always
positive by construction) and the customer share guarded against a zero
total. -/
def rfmAggregatedRows (cd : List (String × CustMetrics × String)) : List RfmRow :=
  let total_customers := cd.length
  (sortByLE (fun a b => decide (a.1 < b.1) || a.1 == b.1) (foldRfmGroups cd)).map
    (fun kv =>
      { rfm_group := kv.1
        percent_customers := percent_customers_of kv.2.customer_count total_customers
        new_customers := kv.2.new_customers
        avg_days_since_last_order := (kv.2.days_since_sum : ℚ) / (kv.2.customer_count : ℚ)
        avg_total_orders := (kv.2.total_orders_sum : ℚ) / (kv.2.customer_count : ℚ)
        avg_total_spent := kv.2.total_spent_sum / (kv.2.customer_count : ℚ) })

/-! ## Embedding of the customers-by-location script

After the same two-pass reconstruction, the location script buckets each
new customer (exactly one order) by the (country, region, city) of its
default address, defaulting each component when the address or a field is
absent. -/

/-- The `defaultAddress` sub-record, each field optional. -/
structure LocAddress where
  country : Option String
  provinceCode : Option String
  city : Option String
deriving DecidableEq, Repr

/-- A reconstructed customer of the location script: id, optional default
address, and the attached order collection (only its length is used). -/
structure LocCustomer where
  id : String
  defaultAddress : Option LocAddress
  orders : List String
deriving DecidableEq, Repr

/-- Default country when the address is absent. -/
def unknownCountry : String := "Unknown"

/-- Default region/city code when the address or the field is absent. -/
def unknownCode : String := "ZZ"

/-- The location bucket key of a customer: `("Unknown", "ZZ", "ZZ")` when
`defaultAddress` is `None`, otherwise the address fields with per-field
defaults. -/
def locationKey (c : LocCustomer) : String × String × String :=
  match c.defaultAddress with
  | none => (unknownCountry, unknownCode, unknownCode)
  | some a =>
    (a.country.getD unknownCountry, a.provinceCode.getD unknownCode, a.city.getD unknownCode)

/-- A new customer has exactly one order. -/
def isNewCustomer (c : LocCustomer) : Bool := c.orders.length == 1

/-- The location aggregation: count new customers per location bucket;
customers with any other order count are skipped. -/
def locationCounts (customers : List LocCustomer) : List ((String × String × String) × Nat) :=
  customers.foldl (fun m c =>
    if isNewCustomer c then dbump (locationKey c) m else m) []

/-! ## Concrete sample inputs used to exercise the theorems -/

/-- A sample customer gid. -/
def exCustId : String := "gid://shopify/Customer/1"

/-- A sample order gid. -/
def exOrdId : String := "gid://shopify/Order/11"

/-- A well-formed customer gid that never appears as a root record. -/
def exOrphanParent : String := "gid://shopify/Customer/999"

/-- A sample order payload of the RFM export. -/
def exROrder : ROrder := ⟨⟨2025, 5, 1⟩, 100, 5, 3, 2⟩

/-- A sample customer record. -/
def exRfmCustRec : RfmRec := ⟨some exCustId, none, exROrder⟩

/-- A sample order record whose own id is an order gid. -/
def exRfmOrdIdRec : RfmRec := ⟨some exOrdId, some exCustId, exROrder⟩

/-- A two-line RFM input: the customer record, then its order. -/
def exRfmLines : List RLine := [RLine.record exRfmCustRec, RLine.record exRfmOrdIdRec]

/-- The reconstructed customer the sample input yields. -/
def exAttachedCust : RfmCust := ⟨exRfmCustRec, [exRfmOrdIdRec]⟩

/-- A reconstructed entity set with one one-order customer. -/
def exRfmCustomers : List (String × RfmCust) := [(exCustId, exAttachedCust)]

/-- An order record whose parent reference resolves to no observed root. -/
def exOrphanRec : RfmRec := ⟨some exOrdId, some exOrphanParent, exROrder⟩

/-- An input consisting of that single orphaned order. -/
def exOrphanLines : List RLine := [RLine.record exOrphanRec]

/-- A reconstructed customer with zero orders. -/
def exZeroCust : RfmCust := ⟨exRfmCustRec, []⟩

/-- An entity set with one zero-order customer. -/
def exZeroCustomers : List (String × RfmCust) := [(exCustId, exZeroCust)]

/-- A sample order payload of the cohort export. -/
def exCOrder : COrder := ⟨⟨2025, 4, 29⟩, 10, 1, 2, 3, 16⟩

/-- A cohort order line whose parent is `exCustId`. -/
def exCohOrderLine : CohLine := CohLine.record (some exOrdId) (some exCustId) none (some exCOrder)

/-- The cohort customer line of `exCustId`. -/
def exCohCustLine : CohLine := CohLine.record (some exCustId) none none none

/-- A cohort input in which the order line precedes its customer line. -/
def exC10Lines : List CohLine := [exCohOrderLine, exCohCustLine]

/-- A one-order customer with no default address. -/
def exLocCustomer : LocCustomer := ⟨exCustId, none, [exOrdId]⟩

/-- A location input with that single customer. -/
def exLocCustomers : List LocCustomer := [exLocCustomer]

end ShopifyInsights

namespace ShopifyInsights

/-! ## General lemmas about the dictionary model -/

theorem dlookup_dupsert_self {K V : Type} [DecidableEq K] (k : K) (v : V)
    (d : List (K × V)) : dlookup k (dupsert k v d) = some v := by
  induction d with
  | nil => simp [dupsert, dlookup]
  | cons kv rest ih =>
    by_cases h : kv.1 = k
    · simp [dupsert, dlookup, h]
    · simp [dupsert, dlookup, h, ih]

theorem dlookup_dupsert_ne {K V : Type} [DecidableEq K] {k k' : K} (v : V)
    (d : List (K × V)) (h : k' ≠ k) :
    dlookup k (dupsert k' v d) = dlookup k d := by
  induction d with
  | nil => simp [dupsert, dlookup, h]
  | cons kv rest ih =>
    by_cases hk : kv.1 = k'
    · simp [dupsert, dlookup, hk, h]
    · simp only [dupsert, hk, if_false]
      by_cases hk2 : kv.1 = k
      · simp [dlookup, hk2]
      · simp [dlookup, hk2, ih]

theorem dlookup_dappend_self {K V : Type} [DecidableEq K] (k : K) (x : V)
    (d : List (K × List V)) :
    dlookupD k (dappend k x d) [] = dlookupD k d [] ++ [x] := by
  induction d with
  | nil => simp [dappend, dlookup, dlookupD]
  | cons kv rest ih =>
    by_cases h : kv.1 = k
    · simp [dappend, dlookup, dlookupD, h]
    · simp only [dappend, h, if_false]
      simp only [dlookupD, dlookup, h, if_false] at ih ⊢
      exact ih

theorem dlookup_dappend_ne {K V : Type} [DecidableEq K] {k k' : K} (x : V)
    (d : List (K × List V)) (h : k' ≠ k) :
    dlookup k (dappend k' x d) = dlookup k d := by
  induction d with
  | nil => simp [dappend, dlookup, h]
  | cons kv rest ih =>
    by_cases hk : kv.1 = k'
    · simp [dappend, dlookup, hk, h]
    · simp only [dappend, hk, if_false]
      by_cases hk2 : kv.1 = k
      · simp [dlookup, hk2]
      · simp [dlookup, hk2, ih]

theorem dlookupD_dbump_self {K : Type} [DecidableEq K] (k : K)
    (d : List (K × Nat)) :
    dlookupD k (dbump k d) 0 = dlookupD k d 0 + 1 := by
  induction d with
  | nil => simp [dbump, dlookup, dlookupD]
  | cons kv rest ih =>
    by_cases h : kv.1 = k
    · simp [dbump, dlookup, dlookupD, h]
    · simp only [dbump, h, if_false]
      simp only [dlookupD, dlookup, h, if_false] at ih ⊢
      exact ih

theorem dlookupD_dbump_ne {K : Type} [DecidableEq K] {k k' : K}
    (d : List (K × Nat)) (h : k' ≠ k) :
    dlookupD k (dbump k' d) 0 = dlookupD k d 0 := by
  induction d with
  | nil => simp [dbump, dlookup, dlookupD, h]
  | cons kv rest ih =>
    by_cases hk : kv.1 = k'
    · simp [dbump, dlookup, dlookupD, hk, h]
    · simp only [dbump, hk, if_false]
      by_cases hk2 : kv.1 = k
      · simp [dlookupD, dlookup, hk2]
      · simp only [dlookupD, dlookup, hk2, if_false] at ih ⊢
        exact ih

theorem dlookup_eq_some_mem {K V : Type} [DecidableEq K] {k : K} {v : V}
    {d : List (K × V)} (h : dlookup k d = some v) : (k, v) ∈ d := by
  induction d with
  | nil => simp [dlookup] at h
  | cons kv rest ih =>
    by_cases hk : kv.1 = k
    · simp only [dlookup, hk, if_true, Option.some.injEq] at h
      have : kv = (k, v) := by
        cases kv
        simp_all
      rw [this]
      exact List.mem_cons_self _ _
    · simp only [dlookup, hk, if_false] at h
      exact List.mem_cons_of_mem _ (ih h)

theorem dlookup_isSome_of_mem {K V : Type} [DecidableEq K] {k : K} {v : V}
    {d : List (K × V)} (h : (k, v) ∈ d) : (dlookup k d).isSome := by
  induction d with
  | nil => simp at h
  | cons kv rest ih =>
    rcases List.mem_cons.mp h with h1 | h2
    · simp [dlookup, ← h1]
    · by_cases hk : kv.1 = k
      · simp [dlookup, hk]
      · simp only [dlookup, hk, if_false]
        exact ih h2

theorem dlookup_of_mem_nodup {K V : Type} [DecidableEq K] {k : K} {v : V}
    {d : List (K × V)} (hnd : (dkeys d).Nodup) (h : (k, v) ∈ d) :
    dlookup k d = some v := by
  induction d with
  | nil => simp at h
  | cons kv rest ih =>
    simp only [dkeys, List.map_cons, List.nodup_cons] at hnd
    rcases List.mem_cons.mp h with h1 | h2
    · cases h1
      simp [dlookup]
    · by_cases hk : kv.1 = k
      · exfalso
        apply hnd.1
        rw [hk]
        exact List.mem_map.mpr ⟨(k, v), h2, rfl⟩
      · simp only [dlookup, hk, if_false]
        exact ih hnd.2 h2

theorem mem_dupsert {K V : Type} [DecidableEq K] {p : K × V} {k : K} {v : V}
    {d : List (K × V)} (h : p ∈ dupsert k v d) : p ∈ d ∨ p = (k, v) := by
  induction d with
  | nil =>
    simp only [dupsert, List.mem_singleton] at h
    right
    exact h
  | cons kv rest ih =>
    by_cases hk : kv.1 = k
    · simp only [dupsert, hk, if_true] at h
      rcases List.mem_cons.mp h with h1 | h1
      · right
        exact h1
      · left
        exact List.mem_cons_of_mem _ h1
    · simp only [dupsert, hk, if_false] at h
      rcases List.mem_cons.mp h with h1 | h1
      · left
        exact h1 ▸ List.mem_cons_self _ _
      · rcases ih h1 with h2 | h2
        · left
          exact List.mem_cons_of_mem _ h2
        · right
          exact h2

theorem dkeys_dupsert_nodup {K V : Type} [DecidableEq K] (k : K) (v : V)
    (d : List (K × V)) (hnd : (dkeys d).Nodup) :
    (dkeys (dupsert k v d)).Nodup := by
  induction d with
  | nil => simp [dupsert, dkeys]
  | cons kv rest ih =>
    simp only [dkeys, List.map_cons, List.nodup_cons] at hnd
    by_cases h : kv.1 = k
    · simp only [dupsert, h, if_true, dkeys, List.map_cons, List.nodup_cons]
      refine ⟨?_, hnd.2⟩
      intro hc
      exact hnd.1 (h ▸ hc)
    · simp only [dupsert, h, if_false, dkeys, List.map_cons, List.nodup_cons]
      refine ⟨?_, ih hnd.2⟩
      intro hc
      rcases List.mem_map.mp hc with ⟨p, hp, hpk⟩
      rcases mem_dupsert hp with h1 | h1
      · exact hnd.1 (List.mem_map.mpr ⟨p, h1, hpk⟩)
      · apply h
        rw [← hpk, h1]

theorem dkeys_dappend_sub {K V : Type} [DecidableEq K] (k : K) (x : V)
    (d : List (K × List V)) :
    ∀ y ∈ dkeys (dappend k x d), y ∈ dkeys d ∨ y = k := by
  induction d with
  | nil => simp [dappend, dkeys]
  | cons kv rest ih =>
    intro y hy
    by_cases h : kv.1 = k
    · simp only [dappend, h, if_true, dkeys, List.map_cons, List.mem_cons] at hy ⊢
      rcases hy with h1 | h1
      · left
        left
        exact h1
      · left
        right
        exact h1
    · simp only [dappend, h, if_false, dkeys, List.map_cons, List.mem_cons] at hy ⊢
      rcases hy with h1 | h1
      · left
        left
        exact h1
      · rcases ih y h1 with h2 | h2
        · left
          right
          exact h2
        · right
          exact h2

theorem round2_zero : round2 0 = 0 := by
  norm_num [round2]

theorem dlookup_none_iff {K V : Type} [DecidableEq K] (k : K) (d : List (K × V)) :
    dlookup k d = none ↔ k ∉ dkeys d := by
  induction d with
  | nil => simp [dlookup, dkeys]
  | cons kv rest ih =>
    by_cases hk : kv.1 = k
    · simp [dlookup, dkeys, hk]
    · simp only [dlookup, hk, if_false, dkeys, List.map_cons, List.mem_cons]
      rw [ih]
      simp only [dkeys]
      constructor
      · intro h hc
        rcases hc with h1 | h1
        · exact hk h1.symm
        · exact h h1
      · intro h h1
        exact h (Or.inr h1)

theorem dkeys_dappend_nodup {K V : Type} [DecidableEq K] (k : K) (x : V)
    (d : List (K × List V)) (hnd : (dkeys d).Nodup) :
    (dkeys (dappend k x d)).Nodup := by
  induction d with
  | nil => simp [dappend, dkeys]
  | cons kv rest ih =>
    simp only [dkeys, List.map_cons, List.nodup_cons] at hnd
    by_cases h : kv.1 = k
    · simp only [dappend, h, if_true, dkeys, List.map_cons, List.nodup_cons]
      exact ⟨h ▸ hnd.1, hnd.2⟩
    · simp only [dappend, h, if_false, dkeys, List.map_cons, List.nodup_cons]
      refine ⟨?_, ih hnd.2⟩
      intro hc
      rcases dkeys_dappend_sub k x rest kv.1 hc with h1 | h1
      · exact hnd.1 h1
      · exact h h1

/-! ## Lemmas about the RFM first pass -/

theorem rfmStep_customers (s : RState) (l : RLine) :
    (rfmStep s l).customers = custStepFun s.customers l := by
  cases l with
  | blank => rfl
  | malformed => rfl
  | record r =>
    rcases r with ⟨id, pid, ord⟩
    cases id with
    | none => rfl
    | some i =>
      cases hci : isCustomerGid (some i) with
      | true => simp [rfmStep, custStepFun, lineCustomer, hci]
      | false =>
        cases hco : isOrderGid (some i) with
        | false => simp [rfmStep, custStepFun, lineCustomer, hci, hco]
        | true =>
          cases pid with
          | none => simp [rfmStep, custStepFun, lineCustomer, hci, hco]
          | some p =>
            cases hcp : isCustomerGid (some p) with
            | true => simp [rfmStep, custStepFun, lineCustomer, hci, hco, hcp]
            | false => simp [rfmStep, custStepFun, lineCustomer, hci, hco, hcp]

theorem rfmStep_oby (s : RState) (l : RLine) :
    (rfmStep s l).orders_by_customer = obyStepFun s.orders_by_customer l := by
  cases l with
  | blank => rfl
  | malformed => rfl
  | record r =>
    rcases r with ⟨id, pid, ord⟩
    cases id with
    | none => rfl
    | some i =>
      cases hci : isCustomerGid (some i) with
      | true => simp [rfmStep, obyStepFun, lineOrderRec, hci]
      | false =>
        cases hco : isOrderGid (some i) with
        | false => simp [rfmStep, obyStepFun, lineOrderRec, hci, hco]
        | true =>
          cases pid with
          | none => simp [rfmStep, obyStepFun, lineOrderRec, hci, hco]
          | some p =>
            cases hcp : isCustomerGid (some p) with
            | true => simp [rfmStep, obyStepFun, lineOrderRec, hci, hco, hcp]
            | false => simp [rfmStep, obyStepFun, lineOrderRec, hci, hco, hcp]

theorem rfmStep_invalid (s : RState) (l : RLine) :
    (rfmStep s l).invalid_lines =
      s.invalid_lines + (if lineInvalid l then 1 else 0) := by
  cases l with
  | blank => rfl
  | malformed => rfl
  | record r =>
    rcases r with ⟨id, pid, ord⟩
    cases id with
    | none => rfl
    | some i =>
      cases hci : isCustomerGid (some i) with
      | true => simp [rfmStep, lineInvalid, hci]
      | false =>
        cases hco : isOrderGid (some i) with
        | false => simp [rfmStep, lineInvalid, hci, hco]
        | true =>
          cases pid with
          | none => simp [rfmStep, lineInvalid, hci, hco]
          | some p =>
            cases hcp : isCustomerGid (some p) with
            | true => simp [rfmStep, lineInvalid, hci, hco, hcp]
            | false => simp [rfmStep, lineInvalid, hci, hco, hcp]

theorem foldl_rfmStep_customers (L : List RLine) :
    ∀ s : RState, (L.foldl rfmStep s).customers = L.foldl custStepFun s.customers := by
  induction L with
  | nil => intro s; rfl
  | cons l L ih =>
    intro s
    simp only [List.foldl_cons]
    rw [ih, rfmStep_customers]

theorem foldl_rfmStep_oby (L : List RLine) :
    ∀ s : RState,
      (L.foldl rfmStep s).orders_by_customer =
        L.foldl obyStepFun s.orders_by_customer := by
  induction L with
  | nil => intro s; rfl
  | cons l L ih =>
    intro s
    simp only [List.foldl_cons]
    rw [ih, rfmStep_oby]

theorem foldl_rfmStep_invalid (L : List RLine) :
    ∀ s : RState,
      (L.foldl rfmStep s).invalid_lines = s.invalid_lines + countInvalidLines L := by
  induction L with
  | nil => intro s; simp [countInvalidLines]
  | cons l L ih =>
    intro s
    simp only [List.foldl_cons]
    rw [ih, rfmStep_invalid]
    simp only [countInvalidLines, List.countP_cons]
    by_cases h : lineInvalid l
    · simp only [h, if_true]
      omega
    · simp [h]

theorem foldl_obyStep_lookup (L : List RLine) :
    ∀ (d : List (String × List RfmRec)) (p : String),
      dlookupD p (L.foldl obyStepFun d) [] = dlookupD p d [] ++ rfmOrdersFor L p := by
  induction L with
  | nil => intro d p; simp [rfmOrdersFor]
  | cons l L ih =>
    intro d p
    simp only [List.foldl_cons]
    rw [ih]
    simp only [rfmOrdersFor, List.filterMap_cons]
    cases hq : lineOrderRec l with
    | none =>
      simp only [obyStepFun, hq]
    | some q =>
      simp only [obyStepFun, hq]
      by_cases hp : q.1 = p
      · subst hp
        rw [dlookup_dappend_self]
        simp only [if_pos rfl]
        rw [List.append_assoc]
        rfl
      · have : dlookup p (dappend q.1 q.2 d) = dlookup p d := dlookup_dappend_ne q.2 d hp
        simp only [dlookupD, this, if_neg hp]

theorem foldl_custStep_nodup (L : List RLine) :
    ∀ cs, (dkeys cs).Nodup → (dkeys (L.foldl custStepFun cs)).Nodup := by
  induction L with
  | nil => intro cs h; exact h
  | cons l L ih =>
    intro cs h
    simp only [List.foldl_cons]
    apply ih
    cases hq : lineCustomer l with
    | none => simpa [custStepFun, hq] using h
    | some q =>
      simp only [custStepFun, hq]
      exact dkeys_dupsert_nodup _ _ _ h

theorem foldl_obyStep_nodup (L : List RLine) :
    ∀ d, (dkeys d).Nodup → (dkeys (L.foldl obyStepFun d)).Nodup := by
  induction L with
  | nil => intro d h; exact h
  | cons l L ih =>
    intro d h
    simp only [List.foldl_cons]
    apply ih
    cases hq : lineOrderRec l with
    | none => simpa [obyStepFun, hq] using h
    | some q =>
      simp only [obyStepFun, hq]
      exact dkeys_dappend_nodup _ _ _ h

theorem foldl_custStep_edges (L : List RLine) :
    ∀ cs, (∀ q ∈ cs, q.2.edges = ([] : List RfmRec)) →
      ∀ q ∈ L.foldl custStepFun cs, q.2.edges = [] := by
  induction L with
  | nil => intro cs h; exact h
  | cons l L ih =>
    intro cs h
    simp only [List.foldl_cons]
    apply ih
    intro q hq
    cases hc : lineCustomer l with
    | none =>
      simp only [custStepFun, hc] at hq
      exact h q hq
    | some c =>
      simp only [custStepFun, hc] at hq
      rcases mem_dupsert hq with h1 | h1
      · exact h q h1
      · rw [h1]

theorem rfmReconstruct_lookup_none :
    ∀ (oby : List (String × List RfmRec)) (cs : List (String × RfmCust)) (p : String),
      dlookup p oby = none →
      dlookup p (rfmReconstruct cs oby) = dlookup p cs := by
  intro oby
  induction oby with
  | nil => intro cs p _; rfl
  | cons kv oby ih =>
    intro cs p hno
    by_cases hp : kv.1 = p
    · simp [dlookup, hp] at hno
    · simp only [dlookup, hp, if_false] at hno
      have hstep : rfmReconstruct cs (kv :: oby) =
          rfmReconstruct (match dlookup kv.1 cs with
            | some c => dupsert kv.1 { c with edges := kv.2 } cs
            | none => cs) oby := rfl
      rw [hstep, ih _ _ hno]
      cases hcs : dlookup kv.1 cs with
      | none => rfl
      | some c =>
        simp only
        exact dlookup_dupsert_ne _ cs hp

theorem rfmReconstruct_lookup_some :
    ∀ (oby : List (String × List RfmRec)) (cs : List (String × RfmCust)) (p : String)
      (os : List RfmRec),
      (dkeys oby).Nodup →
      dlookup p oby = some os →
      dlookup p (rfmReconstruct cs oby) =
        (dlookup p cs).map (fun c => { c with edges := os }) := by
  intro oby
  induction oby with
  | nil => intro cs p os _ h; simp [dlookup] at h
  | cons kv oby ih =>
    intro cs p os hnd hso
    simp only [dkeys, List.map_cons, List.nodup_cons] at hnd
    have hstep : rfmReconstruct cs (kv :: oby) =
        rfmReconstruct (match dlookup kv.1 cs with
          | some c => dupsert kv.1 { c with edges := kv.2 } cs
          | none => cs) oby := rfl
    by_cases hp : kv.1 = p
    · subst hp
      simp only [dlookup, eq_self_iff_true, if_true, Option.some.injEq] at hso
      subst hso
      have hno : dlookup kv.1 oby = none := (dlookup_none_iff _ _).mpr hnd.1
      rw [hstep, rfmReconstruct_lookup_none oby _ _ hno]
      cases hcs : dlookup kv.1 cs with
      | none => simp [hcs]
      | some c =>
        simp only [hcs, Option.map_some]
        exact dlookup_dupsert_self _ _ _
    · simp only [dlookup, hp, if_false] at hso
      rw [hstep, ih _ _ _ hnd.2 hso]
      cases hcs : dlookup kv.1 cs with
      | none => rfl
      | some c =>
        simp only
        rw [dlookup_dupsert_ne _ cs hp]

/-! ## Lemmas about the cohort first loop -/

theorem cohStep_customers (s : CohortState) (l : CohLine) :
    (cohStep s l).customers = cohCustStep s.customers l := by
  cases l with
  | blank => rfl
  | malformed => rfl
  | record id pid ca payload =>
    have main : ∀ (hskip : isCustomerGid id = false),
        (cohStep s (CohLine.record id pid ca payload)).customers =
          cohCustStep s.customers (CohLine.record id pid ca payload) := by
      intro hskip
      cases pid with
      | none =>
        cases id with
        | none => rfl
        | some i => simp [cohStep, cohCustStep, hskip]
      | some p =>
        cases hcp : isCustomerGid (some p) with
        | false =>
          cases id with
          | none => simp [cohStep, cohCustStep, hcp]
          | some i => simp [cohStep, cohCustStep, hskip, hcp]
        | true =>
          cases payload with
          | none =>
            cases id with
            | none => simp [cohStep, cohCustStep, hcp]
            | some i => simp [cohStep, cohCustStep, hskip, hcp]
          | some o =>
            cases hd : dlookup p s.customers with
            | none =>
              cases id with
              | none => simp [cohStep, cohCustStep, hcp, hd]
              | some i => simp [cohStep, cohCustStep, hskip, hcp, hd]
            | some info =>
              cases hb : (match info.first_order_date with
                | none => true
                | some d => o.order_date.blt d) with
              | true =>
                cases id with
                | none => simp [cohStep, cohCustStep, hcp, hd, hb]
                | some i => simp [cohStep, cohCustStep, hskip, hcp, hd, hb]
              | false =>
                cases id with
                | none => simp [cohStep, cohCustStep, hcp, hd, hb]
                | some i => simp [cohStep, cohCustStep, hskip, hcp, hd, hb]
    cases id with
    | none => exact main rfl
    | some i =>
      cases hci : isCustomerGid (some i) with
      | true => simp [cohStep, cohCustStep, hci]
      | false => exact main hci

theorem cohStep_oby (s : CohortState) (l : CohLine) :
    (cohStep s l).customer_orders = cohObyStep s.customer_orders l := by
  cases l with
  | blank => rfl
  | malformed => rfl
  | record id pid ca payload =>
    have main : ∀ (hskip : isCustomerGid id = false),
        (cohStep s (CohLine.record id pid ca payload)).customer_orders =
          cohObyStep s.customer_orders (CohLine.record id pid ca payload) := by
      intro hskip
      cases pid with
      | none =>
        cases id with
        | none => rfl
        | some i => simp [cohStep, cohObyStep, cohLineOrder, hskip]
      | some p =>
        cases hcp : isCustomerGid (some p) with
        | false =>
          cases id with
          | none => simp [cohStep, cohObyStep, cohLineOrder, hcp]
          | some i => simp [cohStep, cohObyStep, cohLineOrder, hskip, hcp]
        | true =>
          cases payload with
          | none =>
            cases id with
            | none => simp [cohStep, cohObyStep, cohLineOrder, hcp]
            | some i => simp [cohStep, cohObyStep, cohLineOrder, hskip, hcp]
          | some o =>
            cases hd : dlookup p s.customers with
            | none =>
              cases id with
              | none => simp [cohStep, cohObyStep, cohLineOrder, hcp, hd]
              | some i => simp [cohStep, cohObyStep, cohLineOrder, hskip, hcp, hd]
            | some info =>
              cases hb : (match info.first_order_date with
                | none => true
                | some d => o.order_date.blt d) with
              | true =>
                cases id with
                | none => simp [cohStep, cohObyStep, cohLineOrder, hcp, hd, hb]
                | some i => simp [cohStep, cohObyStep, cohLineOrder, hskip, hcp, hd, hb]
              | false =>
                cases id with
                | none => simp [cohStep, cohObyStep, cohLineOrder, hcp, hd, hb]
                | some i => simp [cohStep, cohObyStep, cohLineOrder, hskip, hcp, hd, hb]
    cases id with
    | none => exact main rfl
    | some i =>
      cases hci : isCustomerGid (some i) with
      | true => simp [cohStep, cohObyStep, cohLineOrder, hci]
      | false => exact main hci

theorem foldl_cohStep_customers (L : List CohLine) :
    ∀ s : CohortState, (L.foldl cohStep s).customers = L.foldl cohCustStep s.customers := by
  induction L with
  | nil => intro s; rfl
  | cons l L ih =>
    intro s
    simp only [List.foldl_cons]
    rw [ih, cohStep_customers]

theorem foldl_cohStep_oby (L : List CohLine) :
    ∀ s : CohortState,
      (L.foldl cohStep s).customer_orders = L.foldl cohObyStep s.customer_orders := by
  induction L with
  | nil => intro s; rfl
  | cons l L ih =>
    intro s
    simp only [List.foldl_cons]
    rw [ih, cohStep_oby]

theorem cohCustStep_shape (cs : List (String × CustInfo)) (l : CohLine) :
    cohCustStep cs l = cs ∨
    ∃ x info, cohCustStep cs l = dupsert x info cs ∧
      (isCustLineFor x l = true ∨
        (entersOrderBranchFor x l = true ∧ (dlookup x cs).isSome)) := by
  cases l with
  | blank => left; rfl
  | malformed => left; rfl
  | record id pid ca payload =>
    have order : ∀ (hskip : isCustomerGid id = false),
        cohCustStep cs (CohLine.record id pid ca payload) = cs ∨
        ∃ x info, cohCustStep cs (CohLine.record id pid ca payload) = dupsert x info cs ∧
          (isCustLineFor x (CohLine.record id pid ca payload) = true ∨
            (entersOrderBranchFor x (CohLine.record id pid ca payload) = true ∧
              (dlookup x cs).isSome)) := by
      intro hskip
      cases pid with
      | none =>
        left
        cases id with
        | none => rfl
        | some i => simp [cohCustStep, hskip]
      | some p =>
        cases hcp : isCustomerGid (some p) with
        | false =>
          left
          cases id with
          | none => simp [cohCustStep, hcp]
          | some i => simp [cohCustStep, hskip, hcp]
        | true =>
          cases payload with
          | none =>
            left
            cases id with
            | none => simp [cohCustStep, hcp]
            | some i => simp [cohCustStep, hskip, hcp]
          | some o =>
            cases hd : dlookup p cs with
            | none =>
              left
              cases id with
              | none => simp [cohCustStep, hcp, hd]
              | some i => simp [cohCustStep, hskip, hcp, hd]
            | some info =>
              cases hb : (match info.first_order_date with
                | none => true
                | some d => o.order_date.blt d) with
              | false =>
                left
                cases id with
                | none => simp [cohCustStep, hcp, hd, hb]
                | some i => simp [cohCustStep, hskip, hcp, hd, hb]
              | true =>
                right
                refine ⟨p, { info with first_order_date := some o.order_date }, ?_, ?_⟩
                · cases id with
                  | none => simp [cohCustStep, hcp, hd, hb]
                  | some i => simp [cohCustStep, hskip, hcp, hd, hb]
                · right
                  constructor
                  · cases id with
                    | none =>
                      simp [entersOrderBranchFor, hcp,
                        show isCustomerGid none = false from rfl]
                    | some i => simp [entersOrderBranchFor, hskip, hcp]
                  · rw [hd]
                    rfl
    cases id with
    | none => exact order rfl
    | some i =>
      cases hci : isCustomerGid (some i) with
      | true =>
        right
        refine ⟨i, { createdAt := ca, first_order_date := none }, ?_, Or.inl ?_⟩
        · simp [cohCustStep, hci]
        · simp [isCustLineFor, hci]
      | false => exact order hci

theorem cohCustStep_lookup_other (cs : List (String × CustInfo)) (l : CohLine) (x : String)
    (hl : touchesCust x l = false) :
    dlookup x (cohCustStep cs l) = dlookup x cs := by
  rcases cohCustStep_shape cs l with h | ⟨y, info, heq, hy⟩
  · rw [h]
  · rw [heq]
    have hxy : y ≠ x := by
      intro hcontra
      subst hcontra
      simp only [touchesCust, Bool.or_eq_false_iff] at hl
      rcases hy with h1 | h1
      · rw [h1] at hl
        exact absurd hl.1 (by simp)
      · rw [h1.1] at hl
        exact absurd hl.2 (by simp)
    exact dlookup_dupsert_ne _ cs hxy

theorem cohCustStep_lookup_none (cs : List (String × CustInfo)) (l : CohLine) (x : String)
    (hnone : dlookup x cs = none) (hl : isCustLineFor x l = false) :
    dlookup x (cohCustStep cs l) = none := by
  rcases cohCustStep_shape cs l with h | ⟨y, info, heq, hy⟩
  · rw [h, hnone]
  · rw [heq]
    have hxy : y ≠ x := by
      intro hcontra
      subst hcontra
      rcases hy with h1 | h1
      · rw [h1] at hl
        simp at hl
      · rw [hnone] at h1
        simp at h1
    rw [dlookup_dupsert_ne _ cs hxy, hnone]

theorem cohCustStep_nodup (cs : List (String × CustInfo)) (l : CohLine)
    (hnd : (dkeys cs).Nodup) : (dkeys (cohCustStep cs l)).Nodup := by
  rcases cohCustStep_shape cs l with h | ⟨y, info, heq, _⟩
  · rw [h]; exact hnd
  · rw [heq]
    exact dkeys_dupsert_nodup _ _ _ hnd

theorem cohCustStep_custLine (cs : List (String × CustInfo)) (x : String)
    (pid : Option String) (ca : Option String) (payload : Option COrder)
    (hx : isCustomerGid (some x) = true) :
    cohCustStep cs (CohLine.record (some x) pid ca payload) =
      dupsert x { createdAt := ca, first_order_date := none } cs := by
  simp [cohCustStep, hx]

theorem foldl_cohCustStep_keep (L : List CohLine) :
    ∀ (cs : List (String × CustInfo)) (x : String) (info : CustInfo),
      dlookup x cs = some info → (∀ l ∈ L, touchesCust x l = false) →
      dlookup x (L.foldl cohCustStep cs) = some info := by
  induction L with
  | nil => intro cs x info h _; exact h
  | cons l L ih =>
    intro cs x info h hL
    simp only [List.foldl_cons]
    apply ih
    · rw [cohCustStep_lookup_other cs l x (hL l (List.mem_cons_self _ _))]
      exact h
    · intro l2 h2
      exact hL l2 (List.mem_cons_of_mem _ h2)

theorem foldl_cohCustStep_nodup (L : List CohLine) :
    ∀ cs, (dkeys cs).Nodup → (dkeys (L.foldl cohCustStep cs)).Nodup := by
  induction L with
  | nil => intro cs h; exact h
  | cons l L ih =>
    intro cs h
    simp only [List.foldl_cons]
    exact ih _ (cohCustStep_nodup cs l h)

theorem foldl_cohObyStep_lookup (L : List CohLine) :
    ∀ (d : List (String × List COrder)) (x : String),
      dlookupD x (L.foldl cohObyStep d) [] = dlookupD x d [] ++ cohOrdersFor L x := by
  induction L with
  | nil => intro d x; simp [cohOrdersFor]
  | cons l L ih =>
    intro d x
    simp only [List.foldl_cons]
    rw [ih]
    simp only [cohOrdersFor, List.filterMap_cons]
    cases hq : cohLineOrder l with
    | none =>
      simp only [cohObyStep, hq, cohOrderFor]
    | some q =>
      simp only [cohObyStep, hq, cohOrderFor]
      by_cases hp : q.1 = x
      · subst hp
        rw [dlookup_dappend_self]
        simp
      · have h2 : dlookup x (dappend q.1 q.2 d) = dlookup x d := dlookup_dappend_ne q.2 d hp
        simp [dlookupD, h2, hp]

theorem mem_cohortMembers
    {cs : List (String × CustInfo)} {p : Nat × Nat} {x : String}
    (h : x ∈ cohortMembers cs p) :
    ∃ info d, (x, info) ∈ cs ∧ info.first_order_date = some d ∧ monthOf d = p := by
  have main : ∀ (cs : List (String × CustInfo)) (acc : List ((Nat × Nat) × List String)),
      x ∈ dlookupD p (cs.foldl (fun acc kv =>
        match kv.2.first_order_date with
        | none => acc
        | some d => dappend (monthOf d) kv.1 acc) acc) [] →
      x ∈ dlookupD p acc [] ∨
        ∃ info d, (x, info) ∈ cs ∧ info.first_order_date = some d ∧ monthOf d = p := by
    intro cs
    induction cs with
    | nil => intro acc h; exact Or.inl h
    | cons kv cs ih =>
      intro acc h
      simp only [List.foldl_cons] at h
      rcases ih _ h with h1 | ⟨info, d, hmem, hfo, hm⟩
      · cases hfo : kv.2.first_order_date with
        | none =>
          rw [hfo] at h1
          exact Or.inl h1
        | some d =>
          rw [hfo] at h1
          by_cases hm : monthOf d = p
          · subst hm
            rw [dlookup_dappend_self] at h1
            rcases List.mem_append.mp h1 with h2 | h2
            · exact Or.inl h2
            · right
              refine ⟨kv.2, d, ?_, hfo, rfl⟩
              have : x = kv.1 := List.mem_singleton.mp h2
              rw [this]
              exact List.mem_cons_self _ _
          · have h2 : dlookup p (dappend (monthOf d) kv.1 acc) = dlookup p acc :=
              dlookup_dappend_ne kv.1 acc hm
            simp only [dlookupD, h2] at h1
            exact Or.inl h1
      · right
        exact ⟨info, d, List.mem_cons_of_mem _ hmem, hfo, hm⟩
  rcases main cs [] h with h1 | h1
  · simp [dlookupD, dlookup] at h1
  · exact h1

/-! ## Lemmas about the RFM metric and grouping steps -/

theorem ccdStep_mem (dayDiff : SDate → SDate → Int) (today : SDate)
    (acc : List (String × CustMetrics)) (kv : String × RfmCust)
    {q : String × CustMetrics} (h : q ∈ ccdStep dayDiff today acc kv) :
    q ∈ acc ∨
      (q.1 = kv.1 ∧ q.2.total_orders = kv.2.edges.length ∧ kv.2.edges.length ≠ 0 ∧
        q.2.is_new_customer = (q.2.total_orders == 1)) := by
  by_cases h0 : kv.2.edges.length = 0
  · left
    simpa [ccdStep, h0] using h
  · cases hlast : lastOrderDate kv.2.edges with
    | none =>
      left
      simpa [ccdStep, h0, hlast] using h
    | some last =>
      simp only [ccdStep, h0, if_false, hlast] at h
      rcases List.mem_append.mp h with h1 | h1
      · exact Or.inl h1
      · right
        have : q = (kv.1,
            { days_since_last_order := dayDiff today last
              total_orders := kv.2.edges.length
              total_spent := totalSpentOf kv.2.edges
              is_new_customer := kv.2.edges.length == 1 }) := List.mem_singleton.mp h1
        rw [this]
        exact ⟨rfl, rfl, h0, rfl⟩

theorem computeCustomerData_mem (dayDiff : SDate → SDate → Int) (today : SDate) :
    ∀ (cs : List (String × RfmCust)) (q : String × CustMetrics),
      q ∈ computeCustomerData dayDiff today cs →
      (q.2.is_new_customer = (q.2.total_orders == 1) ∧
        ∃ c : RfmCust, (q.1, c) ∈ cs ∧ c.edges.length ≠ 0 ∧
          q.2.total_orders = c.edges.length) := by
  have main : ∀ (cs : List (String × RfmCust)) (acc : List (String × CustMetrics))
      (q : String × CustMetrics), q ∈ cs.foldl (ccdStep dayDiff today) acc →
      q ∈ acc ∨
        (q.2.is_new_customer = (q.2.total_orders == 1) ∧
          ∃ c : RfmCust, (q.1, c) ∈ cs ∧ c.edges.length ≠ 0 ∧
            q.2.total_orders = c.edges.length) := by
    intro cs
    induction cs with
    | nil => intro acc q h; exact Or.inl h
    | cons kv cs ih =>
      intro acc q h
      simp only [List.foldl_cons] at h
      rcases ih _ _ h with h1 | ⟨hn, c, hc, hlen, hto⟩
      · rcases ccdStep_mem dayDiff today acc kv h1 with h2 | ⟨hk, hto, hlen, hn⟩
        · exact Or.inl h2
        · right
          refine ⟨hn, kv.2, ?_, hlen, hto⟩
          rw [hk]
          exact List.mem_cons_self _ _
      · right
        exact ⟨hn, c, List.mem_cons_of_mem _ hc, hlen, hto⟩
  intro cs q h
  rcases main cs [] q h with h1 | h1
  · simp at h1
  · exact h1

theorem assignGroups_lookup (cd : List (String × CustMetrics)) (cid : String) :
    dlookup cid (assignGroups cd) =
      (dlookup cid cd).map (fun m => (m, assignRfmGroup m)) := by
  induction cd with
  | nil => rfl
  | cons kv cd ih =>
    by_cases h : kv.1 = cid
    · simp [assignGroups, dlookup, h]
    · simp only [assignGroups, List.map_cons, dlookup, h, if_false]
      exact ih

/-! ## Lemmas about the location aggregation -/

theorem locationCounts_count (customers : List LocCustomer) (k : String × String × String) :
    dlookupD k (locationCounts customers) 0 =
      customers.countP (fun c => isNewCustomer c && (locationKey c == k)) := by
  have main : ∀ (cs : List LocCustomer) (m : List ((String × String × String) × Nat)),
      dlookupD k (cs.foldl (fun m c =>
          if isNewCustomer c then dbump (locationKey c) m else m) m) 0 =
        dlookupD k m 0 + cs.countP (fun c => isNewCustomer c && (locationKey c == k)) := by
    intro cs
    induction cs with
    | nil => intro m; simp
    | cons c cs ih =>
      intro m
      simp only [List.foldl_cons, List.countP_cons]
      by_cases hn : isNewCustomer c = true
      · by_cases hk : locationKey c = k
        · have hstep : (if isNewCustomer c = true then dbump (locationKey c) m else m)
              = dbump k m := by
            rw [if_pos hn, hk]
          rw [hstep, ih, dlookupD_dbump_self]
          have hpred : (isNewCustomer c && (locationKey c == k)) = true := by
            rw [hn, hk]
            simp
          rw [hpred]
          simp only [if_true]
          omega
        · have hstep : (if isNewCustomer c = true then dbump (locationKey c) m else m)
              = dbump (locationKey c) m := if_pos hn
          rw [hstep, ih, dlookupD_dbump_ne m hk]
          have hpred : (isNewCustomer c && (locationKey c == k)) = false := by
            simp [hk]
          rw [hpred]
          simp
      · have hstep : (if isNewCustomer c = true then dbump (locationKey c) m else m) = m :=
          if_neg hn
        rw [hstep, ih]
        have hpred : (isNewCustomer c && (locationKey c == k)) = false := by
          simp only [Bool.eq_false_iff]
          intro hc
          exact hn (by simpa using (Bool.and_eq_true_iff.mp hc).1)
        rw [hpred]
        simp
  have : locationCounts customers = customers.foldl (fun m c =>
      if isNewCustomer c then dbump (locationKey c) m else m) [] := rfl
  rw [this, main customers []]
  simp [dlookupD, dlookup]

/-! ## Claim theorems -/

/-- Claim C1: net-sales identity.  Every finalized bucket row of the
sales-over-time Metric Aggregator satisfies
`net_sales = round2 (gross_sales - discounts - returns)`, the returns being
the accumulated refund totals of the bucket; and every cohort row satisfies
`Total_net_sales = round2 (gross - discounts - 0)` — the cohort export
carries no refund field, so its returns term is identically zero. -/
theorem C1_net_sales_identity :
    (∀ (day : String) (a : DayAcc),
      (mkDayRow day a).net_sales = round2 (a.gross_sales - a.discounts - a.returns)) ∧
    (∀ (period : Nat × Nat) (ps : Int) (tc tor : Nat) (g d ts : ℚ) (rep : Nat),
      (mkCohortRow period ps tc tor g d ts rep).Total_net_sales = round2 (g - d - 0)) := by
  constructor
  · intro day a
    rfl
  · intro period ps tc tor g d ts rep
    simp [mkCohortRow, sub_zero]

/-- Claim C2: the New-group override.  Any customer of the RFM grouped data
with exactly one qualifying order is assigned the group "New", regardless of
its recency/frequency/monetary scores — the `is_new_customer` check precedes
the average-score band selection. -/
theorem C2_new_override (dayDiff : SDate → SDate → Int) (today : SDate)
    (customers : List (String × RfmCust)) (cid : String) (m : CustMetrics) (g : String)
    (h : dlookup cid (rfmGroupedData dayDiff today customers) = some (m, g))
    (h1 : m.total_orders = 1) : g = "New" := by
  rw [rfmGroupedData, assignGroups_lookup] at h
  cases hcd : dlookup cid (computeCustomerData dayDiff today customers) with
  | none =>
    rw [hcd, Option.map_none'] at h
    exact Option.noConfusion h
  | some m0 =>
    rw [hcd] at h
    simp only [Option.map_some', Option.some.injEq, Prod.mk.injEq] at h
    obtain ⟨hm, hg⟩ := h
    subst hm
    have hmem := dlookup_eq_some_mem hcd
    have hnew := (computeCustomerData_mem dayDiff today customers (cid, m0) hmem).1
    have hb : m0.is_new_customer = true := by
      rw [hnew, h1]
      rfl
    rw [← hg]
    simp [assignRfmGroup, hb]

/-- Witness for C2 on a concrete one-order customer. -/
theorem C2_new_override_witness :
    dlookup exCustId (rfmGroupedData (fun _ _ => 0) ⟨2025, 5, 6⟩ exRfmCustomers) =
      some (⟨0, 1, 100, true⟩, "New") ∧ ("New" : String) = "New" := by
  have h1 : computeCustomerData (fun _ _ => 0) ⟨2025, 5, 6⟩ exRfmCustomers =
      [(exCustId, ⟨0, 1, 100, true⟩)] := by
    simp only [computeCustomerData, exRfmCustomers, exAttachedCust, List.foldl, ccdStep,
      lastOrderDate, totalSpentOf, exRfmOrdIdRec, exROrder, List.length_cons,
      List.length_nil]
    norm_num
  have h2 : dlookup exCustId (rfmGroupedData (fun _ _ => 0) ⟨2025, 5, 6⟩ exRfmCustomers) =
      some (⟨0, 1, 100, true⟩, "New") := by
    rw [rfmGroupedData, h1]
    simp [assignGroups, assignRfmGroup, dlookup]
  exact ⟨h2, C2_new_override (fun _ _ => 0) ⟨2025, 5, 6⟩ exRfmCustomers exCustId
    ⟨0, 1, 100, true⟩ "New" h2 rfl⟩

/-- Claim C3: the zero-denominator law.  In the cohort row, a zero order
count makes the average order value 0, and a zero customer count makes the
average order count, the amount per customer and the retention 0; in the
RFM report a zero customer total makes the percent share 0.  No division is
ever evaluated with a zero denominator — every such field is produced by
the explicit zero fallback branch. -/
theorem C3_zero_denominator :
    ∀ (period : Nat × Nat) (ps : Int) (tc tor : Nat) (g d ts : ℚ) (rep : Nat),
      (tor = 0 → (mkCohortRow period ps tc tor g d ts rep).Average_order_value = 0) ∧
      (tc = 0 →
        (mkCohortRow period ps tc tor g d ts rep).Average_number_of_orders = 0 ∧
        (mkCohortRow period ps tc tor g d ts rep).Amount_spent_per_customer = 0 ∧
        (mkCohortRow period ps tc tor g d ts rep).Customer_retention = 0) ∧
      (∀ cc : Nat, percent_customers_of cc 0 = 0) := by
  intro period ps tc tor g d ts rep
  refine ⟨?_, ?_, ?_⟩
  · intro h
    subst h
    simp [mkCohortRow, round2_zero]
  · intro h
    subst h
    refine ⟨?_, ?_, ?_⟩ <;> simp [mkCohortRow, round2_zero]
  · intro cc
    simp [percent_customers_of]

/-- Witness for C3 at a concrete zero-denominator row. -/
theorem C3_zero_denominator_witness :
    (mkCohortRow (2025, 4) 0 0 0 5 3 7 2).Average_order_value = 0 ∧
    (mkCohortRow (2025, 4) 0 0 0 5 3 7 2).Average_number_of_orders = 0 ∧
    (mkCohortRow (2025, 4) 0 0 0 5 3 7 2).Amount_spent_per_customer = 0 ∧
    (mkCohortRow (2025, 4) 0 0 0 5 3 7 2).Customer_retention = 0 ∧
    percent_customers_of 4 0 = 0 :=
  ⟨(C3_zero_denominator (2025, 4) 0 0 0 5 3 7 2).1 rfl,
   ((C3_zero_denominator (2025, 4) 0 0 0 5 3 7 2).2.1 rfl).1,
   ((C3_zero_denominator (2025, 4) 0 0 0 5 3 7 2).2.1 rfl).2.1,
   ((C3_zero_denominator (2025, 4) 0 0 0 5 3 7 2).2.1 rfl).2.2,
   (C3_zero_denominator (2025, 4) 0 0 0 5 3 7 2).2.2 4⟩

/-- Claim C4, evaluation of the code at the failing inputs: the `≤`-ladder
gives score 5 to one order and score 1 to twenty orders, and score 5 to a
fifty-dollar spend and score 1 to a six-thousand-dollar spend — the inverse
of "most frequent / highest spend is best"; only recency (fewer days since
the last order is better) matches the claimed direction. -/
theorem C4_score_ladder_inverted :
    score_metric 1 frequency_thresholds = 5 ∧
    score_metric 20 frequency_thresholds = 1 ∧
    score_metric 50 monetary_thresholds = 5 ∧
    score_metric 6000 monetary_thresholds = 1 ∧
    score_metric 10 recency_thresholds = 5 ∧
    score_metric 365 recency_thresholds = 1 := by
  decide

/-- Claim C5 (amended): every customer present in the run has, after
reconstruction, exactly the input's order records with its parent reference,
in input order (no duplication, no loss); and the invalid-line counter counts
exactly the malformed, unrecognized and missing/badly-prefixed-parent lines —
a child whose well-formed parent reference matches no observed root is
silently dropped, not counted. -/
theorem C5_child_attachment (lines : List RLine) :
    (∀ (p : String) (c : RfmCust),
        dlookup p (runRfmPipeline lines).customers = some c →
        c.edges = rfmOrdersFor lines p) ∧
    (runRfmPipeline lines).invalid_lines = countInvalidLines lines := by
  have hcust : (runRfmLoop lines).customers = lines.foldl custStepFun [] :=
    foldl_rfmStep_customers lines RState.fresh
  have hoby : (runRfmLoop lines).orders_by_customer = lines.foldl obyStepFun [] :=
    foldl_rfmStep_oby lines RState.fresh
  have hpipe : (runRfmPipeline lines).customers =
      rfmReconstruct (runRfmLoop lines).customers (runRfmLoop lines).orders_by_customer := rfl
  have hnd : (dkeys (runRfmLoop lines).orders_by_customer).Nodup := by
    rw [hoby]
    exact foldl_obyStep_nodup lines [] (by simp [dkeys])
  have hlk : ∀ p, dlookupD p (runRfmLoop lines).orders_by_customer [] =
      rfmOrdersFor lines p := by
    intro p
    rw [hoby]
    have h0 := foldl_obyStep_lookup lines [] p
    simpa [dlookupD, dlookup] using h0
  constructor
  · intro p c h
    rw [hpipe] at h
    cases hwo : dlookup p (runRfmLoop lines).orders_by_customer with
    | some os =>
      rw [rfmReconstruct_lookup_some _ _ p os hnd hwo] at h
      cases hcs : dlookup p (runRfmLoop lines).customers with
      | none =>
        rw [hcs, Option.map_none'] at h
        exact Option.noConfusion h
      | some c0 =>
        rw [hcs] at h
        simp only [Option.map_some', Option.some.injEq] at h
        have hos : os = rfmOrdersFor lines p := by
          have h3 := hlk p
          simp only [dlookupD, hwo, Option.getD_some] at h3
          exact h3
        rw [← h]
        simpa using hos
    | none =>
      rw [rfmReconstruct_lookup_none _ _ p hwo] at h
      have hmem := dlookup_eq_some_mem h
      have hedges : c.edges = [] := by
        rw [hcust] at hmem
        exact foldl_custStep_edges lines [] (by simp) (p, c) hmem
      have hof : rfmOrdersFor lines p = [] := by
        have h3 := hlk p
        simp only [dlookupD, hwo, Option.getD_none] at h3
        exact h3.symm
      rw [hedges, hof]
  · have h0 : (runRfmPipeline lines).invalid_lines = (runRfmLoop lines).invalid_lines := rfl
    rw [h0]
    have h2 := foldl_rfmStep_invalid lines RState.fresh
    simpa [RState.fresh, runRfmLoop] using h2

/-- Witness for C5 on a concrete customer-then-order input. -/
theorem C5_child_attachment_witness :
    dlookup exCustId (runRfmPipeline exRfmLines).customers = some exAttachedCust ∧
    exAttachedCust.edges = rfmOrdersFor exRfmLines exCustId :=
  ⟨by decide, (C5_child_attachment exRfmLines).1 exCustId exAttachedCust (by decide)⟩

/-- Counterexample to C5 as stated: one order line whose well-formed parent
reference resolves to no observed root.  The child is excluded (no customer
exists, nothing is attached) but the invalid-line counter stays 0 — it is
not counted, contradicting "excluded and counted". -/
theorem C5_orphan_not_counted :
    rfmOrdersFor exOrphanLines exOrphanParent = [exOrphanRec] ∧
    (runRfmPipeline exOrphanLines).customers = [] ∧
    (runRfmPipeline exOrphanLines).invalid_lines = 0 := by
  decide

/-- Claim C6: a malformed line is skipped and counted, and changes nothing
else — the run over the input with the malformed line inserted yields the
same customers dict, the same grouped orders, the same reconstructed
pipeline output, and an invalid-line counter exactly one higher than the
run over the input without it. -/
theorem C6_malformed_line_skipped (L1 L2 : List RLine) :
    (runRfmLoop (L1 ++ RLine.malformed :: L2)).customers =
      (runRfmLoop (L1 ++ L2)).customers ∧
    (runRfmLoop (L1 ++ RLine.malformed :: L2)).orders_by_customer =
      (runRfmLoop (L1 ++ L2)).orders_by_customer ∧
    (runRfmPipeline (L1 ++ RLine.malformed :: L2)).customers =
      (runRfmPipeline (L1 ++ L2)).customers ∧
    (runRfmLoop (L1 ++ RLine.malformed :: L2)).invalid_lines =
      (runRfmLoop (L1 ++ L2)).invalid_lines + 1 := by
  have hcust : (runRfmLoop (L1 ++ RLine.malformed :: L2)).customers =
      (runRfmLoop (L1 ++ L2)).customers := by
    simp only [runRfmLoop]
    rw [foldl_rfmStep_customers, foldl_rfmStep_customers]
    rw [List.foldl_append, List.foldl_append, List.foldl_cons]
    rfl
  have hoby : (runRfmLoop (L1 ++ RLine.malformed :: L2)).orders_by_customer =
      (runRfmLoop (L1 ++ L2)).orders_by_customer := by
    simp only [runRfmLoop]
    rw [foldl_rfmStep_oby, foldl_rfmStep_oby]
    rw [List.foldl_append, List.foldl_append, List.foldl_cons]
    rfl
  refine ⟨hcust, hoby, ?_, ?_⟩
  · show rfmReconstruct (runRfmLoop (L1 ++ RLine.malformed :: L2)).customers
        (runRfmLoop (L1 ++ RLine.malformed :: L2)).orders_by_customer =
      rfmReconstruct (runRfmLoop (L1 ++ L2)).customers
        (runRfmLoop (L1 ++ L2)).orders_by_customer
    rw [hcust, hoby]
  · simp only [runRfmLoop]
    rw [foldl_rfmStep_invalid, foldl_rfmStep_invalid]
    simp only [countInvalidLines, List.countP_append, List.countP_cons]
    have h1 : lineInvalid RLine.malformed = true := rfl
    rw [h1]
    simp only [if_true]
    omega

/-- Claim C7: determinism of the Metric Aggregator.  In this embedding the
aggregator is a pure function of the reconstructed entity set and builds all
its accumulator state inside each invocation, so two sequential runs on the
same inputs produce the same row list definitionally. -/
theorem C7_aggregator_deterministic (customers : List (String × CustInfo))
    (customer_orders : List (String × List COrder)) :
    (cohortAggregatorTwoRuns customers customer_orders).1 =
      (cohortAggregatorTwoRuns customers customer_orders).2 := rfl

/-- Claim C8 (amended): a customer with zero qualifying orders is omitted
from the RFM customer data entirely — the explicit zero-order skip produces
no row for it, rather than a zero-valued row. -/
theorem C8_zero_orders_omitted (dayDiff : SDate → SDate → Int) (today : SDate)
    (customers : List (String × RfmCust)) (cid : String) (c : RfmCust)
    (hnd : (dkeys customers).Nodup)
    (hc : dlookup cid customers = some c) (hz : c.edges = []) :
    dlookup cid (computeCustomerData dayDiff today customers) = none := by
  cases hres : dlookup cid (computeCustomerData dayDiff today customers) with
  | none => rfl
  | some m =>
    exfalso
    have hmem := dlookup_eq_some_mem hres
    obtain ⟨_, c', hc', hlen, _⟩ := computeCustomerData_mem dayDiff today customers (cid, m) hmem
    have h3 := dlookup_of_mem_nodup hnd hc'
    rw [hc] at h3
    have hcc : c = c' := Option.some.inj h3
    rw [← hcc, hz] at hlen
    exact hlen rfl

/-- Witness for C8 on a concrete zero-order customer. -/
theorem C8_zero_orders_omitted_witness :
    (dkeys exZeroCustomers).Nodup ∧
    dlookup exCustId (computeCustomerData (fun _ _ => 0) ⟨2025, 5, 6⟩ exZeroCustomers) =
      none :=
  ⟨by decide, C8_zero_orders_omitted (fun _ _ => 0) ⟨2025, 5, 6⟩ exZeroCustomers exCustId
    exZeroCust (by decide) (by decide) rfl⟩

/-- Counterexample to C8 as stated: a present zero-order customer yields an
empty customer-data list — no row at all, in particular no zero-valued row. -/
theorem C8_zero_orders_no_row :
    dlookup exCustId exZeroCustomers = some exZeroCust ∧
    exZeroCust.edges = [] ∧
    computeCustomerData (fun _ _ => 0) ⟨2025, 5, 6⟩ exZeroCustomers = [] := by
  decide

/-- Claim C9: a customer with exactly one order and an absent default
address is bucketed under ("Unknown", "ZZ", "ZZ") and counted there — never
dropped from the location report. -/
theorem C9_unknown_bucket (customers : List LocCustomer) (c : LocCustomer)
    (hmem : c ∈ customers) (haddr : c.defaultAddress = none)
    (hord : c.orders.length = 1) :
    locationKey c = (unknownCountry, unknownCode, unknownCode) ∧
    1 ≤ dlookupD (unknownCountry, unknownCode, unknownCode) (locationCounts customers) 0 := by
  have hkey : locationKey c = (unknownCountry, unknownCode, unknownCode) := by
    simp [locationKey, haddr]
  refine ⟨hkey, ?_⟩
  rw [locationCounts_count]
  have hpos : 0 < customers.countP
      (fun c => isNewCustomer c &&
        (locationKey c == (unknownCountry, unknownCode, unknownCode))) := by
    rw [List.countP_pos_iff]
    exact ⟨c, hmem, by simp [isNewCustomer, hord, hkey]⟩
  omega

/-- Witness for C9 on a concrete address-less one-order customer. -/
theorem C9_unknown_bucket_witness :
    locationKey exLocCustomer = (unknownCountry, unknownCode, unknownCode) ∧
    1 ≤ dlookupD (unknownCountry, unknownCode, unknownCode) (locationCounts exLocCustomers) 0 :=
  C9_unknown_bucket exLocCustomers exLocCustomer (by decide) rfl rfl

/-- Claim C10: input-order sensitivity of the cohort script.  When the
customer line of `x` appears after all of x's order lines (and nothing after
it touches x again), the orders appended before the customer line survive in
`customer_orders[x]`, but `first_order_date` stays `None` — the `KeyError`
raised on the not-yet-seen customer aborted each earlier order line after
its append — so x is excluded from every cohort despite having orders. -/
theorem C10_order_before_customer
    (L1 L2 : List CohLine) (x : String) (pid0 : Option String)
    (ca : Option String) (pay0 : Option COrder)
    (hx : isCustomerGid (some x) = true)
    (h2 : ∀ l ∈ L2, touchesCust x l = false) :
    dlookup x (runCohLoop (L1 ++ CohLine.record (some x) pid0 ca pay0 :: L2)).customers =
      some { createdAt := ca, first_order_date := none } ∧
    (∀ p : Nat × Nat,
      x ∉ cohortMembers
        (runCohLoop (L1 ++ CohLine.record (some x) pid0 ca pay0 :: L2)).customers p) ∧
    dlookupD x
        (runCohLoop (L1 ++ CohLine.record (some x) pid0 ca pay0 :: L2)).customer_orders [] =
      cohOrdersFor (L1 ++ CohLine.record (some x) pid0 ca pay0 :: L2) x := by
  have hcustView :
      (runCohLoop (L1 ++ CohLine.record (some x) pid0 ca pay0 :: L2)).customers =
        (L1 ++ CohLine.record (some x) pid0 ca pay0 :: L2).foldl cohCustStep [] := by
    simp only [runCohLoop]
    exact foldl_cohStep_customers _ _
  have hsplit :
      (L1 ++ CohLine.record (some x) pid0 ca pay0 :: L2).foldl cohCustStep
          ([] : List (String × CustInfo)) =
        L2.foldl cohCustStep
          (cohCustStep (L1.foldl cohCustStep []) (CohLine.record (some x) pid0 ca pay0)) := by
    rw [List.foldl_append, List.foldl_cons]
  have hmidstep :
      cohCustStep (L1.foldl cohCustStep []) (CohLine.record (some x) pid0 ca pay0) =
        dupsert x { createdAt := ca, first_order_date := none } (L1.foldl cohCustStep []) :=
    cohCustStep_custLine _ x pid0 ca pay0 hx
  have hafter :
      dlookup x ((L1 ++ CohLine.record (some x) pid0 ca pay0 :: L2).foldl cohCustStep []) =
        some { createdAt := ca, first_order_date := none } := by
    rw [hsplit, hmidstep]
    exact foldl_cohCustStep_keep L2 _ x _ (dlookup_dupsert_self _ _ _) h2
  have hnd :
      (dkeys ((L1 ++ CohLine.record (some x) pid0 ca pay0 :: L2).foldl cohCustStep
        ([] : List (String × CustInfo)))).Nodup :=
    foldl_cohCustStep_nodup _ [] (by simp [dkeys])
  refine ⟨by rw [hcustView]; exact hafter, ?_, ?_⟩
  · intro p hp
    rw [hcustView] at hp
    obtain ⟨info, d, hmem, hfo, _⟩ := mem_cohortMembers hp
    have h3 := dlookup_of_mem_nodup hnd hmem
    rw [hafter] at h3
    have h4 : info = { createdAt := ca, first_order_date := none } :=
      (Option.some.inj h3).symm
    rw [h4] at hfo
    simp at hfo
  · have hobyView :
        (runCohLoop (L1 ++ CohLine.record (some x) pid0 ca pay0 :: L2)).customer_orders =
          (L1 ++ CohLine.record (some x) pid0 ca pay0 :: L2).foldl cohObyStep [] := by
      simp only [runCohLoop]
      exact foldl_cohStep_oby _ _
    rw [hobyView]
    have h5 := foldl_cohObyStep_lookup (L1 ++ CohLine.record (some x) pid0 ca pay0 :: L2) [] x
    simpa [dlookupD, dlookup] using h5

/-- Witness for C10 on a concrete order-then-customer input. -/
theorem C10_order_before_customer_witness :
    dlookup exCustId (runCohLoop exC10Lines).customers =
      some { createdAt := none, first_order_date := none } ∧
    exCustId ∉ cohortMembers (runCohLoop exC10Lines).customers (2025, 4) ∧
    dlookupD exCustId (runCohLoop exC10Lines).customer_orders [] = [exCOrder] := by
  have h := C10_order_before_customer [exCohOrderLine] [] exCustId none none none
    (by decide) (by intro l hl; simp at hl)
  have hL : [exCohOrderLine] ++ CohLine.record (some exCustId) none none none :: [] =
      exC10Lines := rfl
  rw [hL] at h
  refine ⟨h.1, h.2.1 (2025, 4), ?_⟩
  rw [h.2.2]
  decide

end ShopifyInsights
